import Mathlib

/-!
Verification of the reconciliation engine of the france-schools-map scraper.

The definitions below are a shallow embedding of the Python source:
  - `AList`/`alookup`/`dinsert` model Python `dict` (insertion order preserved,
    assignment replaces in place, `list(d.values())` is `List.map Prod.snd`);
  - `scraper/download_data.py` and `scraper/download_enrollment_data.py`
    `save_and_merge` is `saveMergeNested`; `scraper/download_language_data.py`
    `save_and_merge` is `saveMergeBoth`;
  - `download_brevet_results` most-recent-session loop is `brevetLatest`;
  - `download_annuaire` curriculum filter is `annuaireKeep`;
  - `download_municipal_2020` per-commune fold is `municipalRun`;
  - `download_presidential_2022` round-1 aggregation is `presAgg` and the
    round-2 runoff computation is `presRound2`;
  - `download_legislative_2024` top-candidate selection is `legisSelect`;
  - `merge_datasets.py` coordinate gate is `mergeSchools`.

Numeric fields are embedded as `Int`/`ℚ`; Python `round(x, 1)` is embedded as
`round1` over `ℚ`.  Python string comparison is code-point lexicographic, as
is Lean `String` order.
-/

namespace SchoolsMap

/-- Model of a Python `dict` keyed by strings: an association list with
no duplicate keys, kept in insertion order. -/
abbrev AList (α : Type) : Type := List (String × α)

/-- `d[k]` lookup returning `none` when absent. -/
def alookup {α : Type} (k : String) : AList α → Option α
  | [] => none
  | (k1, v1) :: t => if k1 = k then some v1 else alookup k t

/-- `d[k] = v`: replace in place if the key is present, else append
(Python dicts keep the original position of an overwritten key). -/
def dinsert {α : Type} (k : String) (v : α) : AList α → AList α
  | [] => [(k, v)]
  | (k1, v1) :: t => if k1 = k then (k, v) :: t else (k1, v1) :: dinsert k v t

/-- Keys of a dict, in order. -/
def akeys {α : Type} : AList α → List String
  | [] => []
  | (k1, _) :: t => k1 :: akeys t

/-- Nonnegative decimal digits to a natural number. -/
def digitsToNat (l : List Char) : Nat :=
  l.foldl (fun n c => n * 10 + (c.toNat - 48)) 0

/-- Python `int(s)` on the string shapes the scrapers feed it: an optional
minus sign followed by decimal digits parses, everything else raises
`ValueError` (embedded as `none`; the callers catch it and skip the row). -/
def parsePyInt (s : String) : Option Int :=
  match s.toList with
  | [] => none
  | c :: rest =>
    if c = '-' then
      if rest ≠ [] ∧ rest.all Char.isDigit then some (-(digitsToNat rest : Int))
      else none
    else
      if (c :: rest).all Char.isDigit then some ((digitsToNat (c :: rest) : Int))
      else none

/-- Python `round(x, 1)`: one decimal place.  Embedded as round-half-up over
`ℚ`; it agrees with the float computation on all inputs away from exact
half-tenth boundaries, and every property proved below only uses the
half-tenth error bound, which holds for either tie convention. -/
def round1 (q : ℚ) : ℚ := ((⌊10 * q + 1 / 2⌋ : ℤ) : ℚ) / 10

/-- Code-point lexicographic comparison of character lists — Python string
`<`, and the order Lean's `String` instances also implement. -/
def charsLt : List Char → List Char → Bool
  | _, [] => false
  | [], _ :: _ => true
  | a :: as, b :: bs =>
    if a.toNat < b.toNat then true
    else if b.toNat < a.toNat then false
    else charsLt as bs

/-- Python `s1 < s2` on strings. -/
def strLt (a b : String) : Bool := charsLt a.toList b.toList

/-- Python `s.upper()` (character-wise; the markers searched for are ASCII, so
accent handling does not affect any containment below). -/
def strUpper (s : String) : String := (s.toList.map Char.toUpper).asString

/-- Python `s.lower()` (character-wise). -/
def strLower (s : String) : String := (s.toList.map Char.toLower).asString

/-- Boolean list-of-chars prefix test. -/
def isPrefOf : List Char → List Char → Bool
  | [], _ => true
  | _ :: _, [] => false
  | a :: as, b :: bs => a == b && isPrefOf as bs

/-- Boolean contiguous-subsequence test on characters. -/
def containsChars (needle : List Char) : List Char → Bool
  | [] => isPrefOf needle []
  | b :: bs => isPrefOf needle (b :: bs) || containsChars needle bs

/-- Python `needle in hay` on strings. -/
def strContains (needle hay : String) : Bool :=
  containsChars needle.toList hay.toList

/-- The `DEPARTMENTS` constant of `download_political_data.py`. -/
def DEPARTMENTS : List String := ["44", "49", "53", "72", "85"]

/-! ## Records and `save_and_merge` -/

/-- A fetched record.  The scrapers access a record in exactly two ways:
`record.get(key_field)` (flat top-level scalar) and the Opendatasoft
envelope `record.get('record', dflt).get('fields', dflt).get(key_field)`;
`Rec0` keeps those two faces: the top-level scalar fields and, when the
envelope is present, its `fields` map. -/
structure Rec0 where
  top : AList String
  nestedFields : Option (AList String)
  deriving DecidableEq, Repr

/-- Python truthiness of an optional string field: `None` and the empty
string are falsy. -/
def truthyStr (v : Option String) : Option String :=
  match v with
  | none => none
  | some s => if s = "" then none else some s

/-- `fields = record.get('record', dflt).get('fields', dflt);
key = fields.get(key_field); if key:` — the key extraction used by
`save_and_merge` in `download_data.py` and `download_enrollment_data.py`. -/
def keyNested (kf : String) (r : Rec0) : Option String :=
  truthyStr (alookup kf (r.nestedFields.getD []))

/-- `key = record.get(key_field); if not key: key = nested(...)` — the key
extraction used by `save_and_merge` in `download_language_data.py`, which
tries the flat shape first and falls back to the envelope. -/
def keyBoth (kf : String) (r : Rec0) : Option String :=
  match truthyStr (alookup kf r.top) with
  | some s => some s
  | none => keyNested kf r

/-- One iteration of the indexing loops: skip the record when no key is
extractable, else `existing_by_key[key] = record`. -/
def indexStep (keyOf : Rec0 → Option String) (m : AList Rec0) (r : Rec0) :
    AList Rec0 :=
  match keyOf r with
  | none => m
  | some k => dinsert k r m

/-- Index a list of records by key on top of an initial dict. -/
def indexBy (keyOf : Rec0 → Option String) (rs : List Rec0) (init : AList Rec0) :
    AList Rec0 :=
  rs.foldl (indexStep keyOf) init

/-- `save_and_merge` of `download_data.py` / `download_enrollment_data.py`
at the dict level: index the previously persisted records, then index the new
batch over them (overwriting same keys).  Keys are extracted from the nested
envelope only. -/
def saveMergeNested (kf : String) (existing newRecs : List Rec0) : AList Rec0 :=
  indexBy (keyNested kf) newRecs (indexBy (keyNested kf) existing [])

/-- The persisted artifact: `combined = list(existing_by_key.values())`. -/
def combinedNested (kf : String) (existing newRecs : List Rec0) : List Rec0 :=
  (saveMergeNested kf existing newRecs).map Prod.snd

/-- `save_and_merge` of `download_language_data.py`: same shape but the key is
extracted from the flat top level first, then from the nested envelope. -/
def saveMergeBoth (kf : String) (existing newRecs : List Rec0) : AList Rec0 :=
  indexBy (keyBoth kf) newRecs (indexBy (keyBoth kf) existing [])

/-- Invariant of the indexing dicts: keys are unique and every record is
stored under its own extracted key. -/
def goodMap (keyOf : Rec0 → Option String) (m : AList Rec0) : Prop :=
  (akeys m).Nodup ∧ ∀ p ∈ m, keyOf p.2 = some p.1

/-- A flat aggregated lycée-enrollment record as built by
`download_lycees_effectifs` (uai, name, rentree, total_students at top
level, no envelope). -/
def lyceeFlatRec : Rec0 :=
  ⟨[("uai", "0170001A"), ("denomination", "LYCEE X"), ("rentree", "2023"),
    ("total_students", "100")], none⟩

/-- A nested-envelope record with key `0441111A`. -/
def nestedRecA : Rec0 := ⟨[], some [("uai", "0441111A"), ("ips", "90")]⟩

/-- A nested-envelope record with key `0442222B`. -/
def nestedRecB : Rec0 := ⟨[], some [("uai", "0442222B"), ("ips", "105")]⟩

/-! ## Brevet most-recent-session reconciliation (`download_brevet_results`) -/

/-- The two fields of a Brevet record the reconciliation loop reads
(`numero_d_etablissement`, `session`), plus an opaque payload standing for
the rest of the record. -/
structure BrevetRec where
  buai : Option String
  session : String
  tag : Nat
  deriving DecidableEq, Repr

/-- `if uai: if uai not in school_records or session > stored_session:
school_records[uai] = record` — lines 279-289 of `download_data.py`. -/
def brevetStep (m : AList BrevetRec) (r : BrevetRec) : AList BrevetRec :=
  match truthyStr r.buai with
  | none => m
  | some k =>
    match alookup k m with
    | none => dinsert k r m
    | some old => if strLt old.session r.session then dinsert k r m else m

/-- The full most-recent-session fold over the fetched records. -/
def brevetLatest (rs : List BrevetRec) : AList BrevetRec :=
  rs.foldl brevetStep []

/-- Two Brevet records for the same school and the same session, differing
in their payload. -/
def brevetRecA : BrevetRec := ⟨some "0441234A", "2023", 1⟩

/-- Second candidate with equal session. -/
def brevetRecB : BrevetRec := ⟨some "0441234A", "2023", 2⟩

/-! ## Annuaire curriculum filter (`download_annuaire`, lines 144-178) -/

/-- The fields of an annuaire record read by the curriculum filter.  The
`voie_*` flags are `1`/`0`/absent in the source; their Python truthiness is
embedded as `Option Bool` with `some true` truthy. -/
structure AnnRow where
  type_etablissement : String
  libelle_nature : String
  nom_etablissement : String
  ecole_elementaire : Option Int
  voie_generale : Option Bool
  voie_professionnelle : Option Bool
  deriving DecidableEq, Repr

/-- `'PROFESSIONNEL' in libelle_nature.upper() or 'professionnel' in
school_name.lower()`. -/
def profMarker (r : AnnRow) : Bool :=
  strContains "PROFESSIONNEL" (strUpper r.libelle_nature) ||
    strContains "professionnel" (strLower r.nom_etablissement)

/-- The row reaches the école branch of the filter. -/
def isEcoleRow (r : AnnRow) : Bool :=
  strContains "Ecole" r.type_etablissement ||
    strContains "ECOLE" (strUpper r.libelle_nature)

/-- The row reaches the collège branch of the filter. -/
def isCollegeRow (r : AnnRow) : Bool :=
  strContains "Collège" r.type_etablissement ||
    strContains "COLLEGE" (strUpper r.libelle_nature)

/-- The row reaches the lycée branch of the filter (not an école, not a
collège, and carries a lycée marker). -/
def isLyceeRow (r : AnnRow) : Bool :=
  !isEcoleRow r && !isCollegeRow r &&
    (strContains "Lycée" r.type_etablissement ||
      strContains "LYCEE" (strUpper r.libelle_nature))

/-- The whole per-record decision of the `download_annuaire` filter loop:
`true` iff the record is appended to `filtered_records`. -/
def annuaireKeep (r : AnnRow) : Bool :=
  if isEcoleRow r then
    r.ecole_elementaire == some 1
  else if isCollegeRow r then
    true
  else if strContains "Lycée" r.type_etablissement ||
      strContains "LYCEE" (strUpper r.libelle_nature) then
    if profMarker r then false
    else if r.voie_generale = some true then true
    else if r.voie_generale = none ∧ r.voie_professionnelle = none then true
    else false
  else false

/-- A lycée row with all track fields absent. -/
def lyceeRowUnknown : AnnRow :=
  ⟨"Lycée", "LYCEE GENERAL", "Lycee Alpha", none, none, none⟩

/-! ## Municipal 2020 reconciliation (`download_municipal_2020`) -/

/-- The columns of one municipal result row the loop reads (already
`.strip()`ed strings). -/
structure MunRow where
  dept : String
  commune : String
  liste : String
  nuance : String
  voix : String
  exprimes : String
  deriving DecidableEq, Repr

/-- The per-commune entry stored in the `municipal` dict. -/
structure MunEntry where
  year : Nat
  roundNum : Nat
  winningList : String
  percentage : ℚ
  party : Option String
  deriving DecidableEq, Repr

/-- `liste or 'Liste inconnue'`. -/
def munListName (liste : String) : String :=
  if liste = "" then "Liste inconnue" else liste

/-- One row of the municipal loop (lines 295-331 of
`download_political_data.py`): department filter, INSEE concatenation,
`int` parses, `total > 0` guard, then the nested
`round <= round_num` / `percentage > stored` replacement rule. -/
def municipalStep (roundNum : Nat) (m : AList MunEntry) (row : MunRow) :
    AList MunEntry :=
  if row.dept ∈ DEPARTMENTS then
    let insee := row.dept ++ row.commune
    if row.voix ≠ "" ∧ row.exprimes ≠ "" then
      match parsePyInt row.voix, parsePyInt row.exprimes with
      | some votes, some total =>
        if 0 < total then
          let pct : ℚ := (votes : ℚ) / (total : ℚ) * 100
          let canReplace : Bool :=
            match alookup insee m with
            | none => true
            | some e => decide (e.roundNum ≤ roundNum)
          if canReplace then
            let wins : Bool :=
              match alookup insee m with
              | none => true
              | some e => decide (e.percentage < pct)
            if wins then
              dinsert insee
                ⟨2020, roundNum, munListName row.liste, round1 pct,
                  if row.nuance = "" then none else some row.nuance⟩ m
            else m
          else m
        else m
      | _, _ => m
    else m
  else m

/-- Both rounds: round-1 files first, then round-2 files over the same dict. -/
def municipalRun (round1Rows round2Rows : List MunRow) : AList MunEntry :=
  round2Rows.foldl (municipalStep 2) (round1Rows.foldl (municipalStep 1) [])

/-- A round-1 winning list at 60% of 100 expressed votes. -/
def munRow1 : MunRow := ⟨"44", "001", "Liste A", "LDVD", "60", "100"⟩

/-- A valid round-2 row for the same commune at 55%. -/
def munRow2 : MunRow := ⟨"44", "001", "Liste B", "LDVG", "55", "100"⟩

/-! ## Presidential 2022 (`download_presidential_2022`) -/

/-- The columns of one presidential result row, after the per-round
column-name mapping has been applied (already `.strip()`ed). -/
structure PresRow where
  dept : String
  commune : String
  nom : String
  prenom : String
  voix : String
  exprimes : String
  deriving DecidableEq, Repr

/-- `f"{prenom} {nom}".strip() if prenom else nom` (the guard ensures
`nom` is nonempty). -/
def presName (row : PresRow) : String :=
  if row.prenom = "" then row.nom else row.prenom ++ " " ++ row.nom

/-- The loop state: `commune_votes` (defaultdict of defaultdict int) and
`commune_totals` (plain dict, set at most once per key). -/
structure PresState where
  votes : AList (AList Int)
  totals : AList Int
  deriving DecidableEq, Repr

/-- `commune_votes[insee][name] += v` with defaultdict semantics. -/
def bumpVotes (vm : AList Int) (name : String) (v : Int) : AList Int :=
  dinsert name ((alookup name vm).getD 0 + v) vm

/-- The `if voix and nom: commune_votes[...] += int(voix)` update. -/
def presVotesUpd (votes : AList (AList Int)) (row : PresRow) (insee : String) :
    AList (AList Int) :=
  if row.voix ≠ "" ∧ row.nom ≠ "" then
    match parsePyInt row.voix with
    | some v =>
      dinsert insee (bumpVotes ((alookup insee votes).getD []) (presName row) v)
        votes
    | none => votes
  else votes

/-- The `if exprimes and insee_code not in commune_totals:
commune_totals[insee_code] = int(exprimes)` update — the denominator is set
only when the key is absent, never accumulated. -/
def presTotalsUpd (totals : AList Int) (row : PresRow) (insee : String) :
    AList Int :=
  if row.exprimes ≠ "" ∧ alookup insee totals = none then
    match parsePyInt row.exprimes with
    | some t => dinsert insee t totals
    | none => totals
  else totals

/-- One row of the presidential aggregation loop (lines 410-438). -/
def presStep (st : PresState) (row : PresRow) : PresState :=
  if row.dept ∈ DEPARTMENTS then
    let insee := row.dept ++ row.commune
    ⟨presVotesUpd st.votes row insee, presTotalsUpd st.totals row insee⟩
  else st

/-- Aggregation over all fetched rows. -/
def presAgg (rows : List PresRow) : PresState :=
  rows.foldl presStep ⟨[], []⟩

/-- Specification-side recursive reading of the denominator: the first row
of the commune whose `exprimes` field is nonempty and parses. -/
def firstExprimes (insee : String) : List PresRow → Option Int
  | [] => none
  | r :: t =>
    if r.dept ∈ DEPARTMENTS ∧ r.dept ++ r.commune = insee ∧
        r.exprimes ≠ "" ∧ (parsePyInt r.exprimes).isSome then
      parsePyInt r.exprimes
    else firstExprimes insee t

/-- `sum(commune_votes[insee_code].values())`. -/
def sumVals (vm : AList Int) : Int := (vm.map Prod.snd).sum

/-- The percentage computed for one candidate of one commune (lines
441-455): `total = commune_totals.get(insee, sum(votes))`, skip when zero,
else `round(votes / total * 100, 1)`. -/
def presPctOf (rows : List PresRow) (insee name : String) : Option ℚ :=
  let st := presAgg rows
  match alookup insee st.votes with
  | none => none
  | some vm =>
    let total : Int := (alookup insee st.totals).getD (sumVals vm)
    if total = 0 then none
    else
      match alookup name vm with
      | some v => some (round1 ((v : ℚ) / (total : ℚ) * 100))
      | none => none

/-- First of the two candidate rows of the regression example. -/
def presRowA : PresRow := ⟨"44", "001", "DUPONT", "ANNE", "48000", "146394"⟩

/-- Second candidate row, repeating the same expressed-votes denominator. -/
def presRowB : PresRow := ⟨"44", "001", "MARTIN", "LUC", "43386", "146394"⟩

/-- One aggregated candidate of the round-2 file: name and summed votes. -/
structure PresCand where
  pname : String
  votes : Int
  deriving DecidableEq, Repr

/-- The stored round-2 runoff entry. -/
structure Round2Res where
  macron : ℚ
  lePen : ℚ
  deriving DecidableEq, Repr

/-- `for cand in candidates: if 'MACRON' in cand['candidate'].upper()`. -/
def findMacron : List PresCand → Option PresCand
  | [] => none
  | c :: t => if strContains "MACRON" (strUpper c.pname) then some c else findMacron t

/-- The round-2 runoff computation (lines 470-489): the leading candidate's
percentage from its votes, the trailing candidate's votes derived as
`total - macron_votes`, both percentages rounded to one decimal. -/
def presRound2 (cands : List PresCand) (total : Int) : Option Round2Res :=
  match findMacron cands with
  | none => none
  | some c =>
    if 0 < total then
      some ⟨round1 ((c.votes : ℚ) / (total : ℚ) * 100),
        round1 (((total - c.votes : Int) : ℚ) / (total : ℚ) * 100)⟩
    else none

/-- Concrete runoff input: the leading candidate polled 60 of 100. -/
def presR2Cands : List PresCand := [⟨"Emmanuel MACRON", 60⟩]

/-! ## Sorting and top-N selection -/

/-- Insert into a list sorted by `key` descending, before the first element
whose key is not larger — the element being inserted precedes later-arriving
equals, matching the stability of Python `list.sort(reverse=True)`. -/
def insertDescBy {α β : Type} [LinearOrder β] (key : α → β) (c : α) :
    List α → List α
  | [] => [c]
  | d :: t => if key d ≤ key c then c :: d :: t else d :: insertDescBy key c t

/-- Stable descending sort by `key`, as `candidates.sort(key=..., reverse=True)`. -/
def sortDescBy {α β : Type} [LinearOrder β] (key : α → β) : List α → List α
  | [] => []
  | c :: t => insertDescBy key c (sortDescBy key t)

/-- One extracted legislative candidate (lines 576-586). -/
structure LegCand where
  cname : String
  party : String
  votes : Int
  pct : ℚ
  deriving DecidableEq, Repr

/-- `candidates.sort(key=lambda x: x['votes'], reverse=True)`. -/
def legisSort (cands : List LegCand) : List LegCand :=
  sortDescBy (fun c => c.votes) cands

/-- `top_count = 2 if round_name == 'round_2' else 4`. -/
def legisTopCount (isRound2 : Bool) : Nat := if isRound2 then 2 else 4

/-- `candidates[:top_count]` after the descending sort — the candidates whose
projections are stored for the round. -/
def legisSelect (cands : List LegCand) (tc : Nat) : List LegCand :=
  (legisSort cands).take tc

/-- The candidates not selected. -/
def legisRest (cands : List LegCand) (tc : Nat) : List LegCand :=
  (legisSort cands).drop tc

/-- One presidential round-1 candidate with its rounded percentage. -/
structure PresPct where
  qname : String
  pct : ℚ
  deriving DecidableEq, Repr

/-- `candidates.sort(key=lambda x: x['percentage'], reverse=True)` followed by
`candidates[:4]` (lines 456-469). -/
def presTop4 (cands : List PresPct) : List PresPct :=
  (sortDescBy (fun c => c.pct) cands).take 4

/-- The presidential round-1 candidates not stored (`candidates[4:]` after
the descending sort). -/
def presRest4 (cands : List PresPct) : List PresPct :=
  (sortDescBy (fun c => c.pct) cands).drop 4

/-- Five presidential round-1 candidates with distinct rounded percentages. -/
def presPctList : List PresPct :=
  [⟨"P1", 50⟩, ⟨"P2", 40⟩, ⟨"P3", 30⟩, ⟨"P4", 20⟩, ⟨"P5", 10⟩]

/-- Two legislative candidates with equal vote counts. -/
def legTieA : LegCand := ⟨"A CANDIDAT", "LRN", 50, 50⟩

/-- The later-arriving candidate of the tie. -/
def legTieB : LegCand := ⟨"B CANDIDAT", "LUG", 50, 50⟩

/-! ## Coordinate gate of the joiner (`merge_datasets.py`, lines 160-208) -/

/-- A JSON scalar as found in the annuaire coordinate fields. -/
inductive JVal where
  | num (q : ℚ)
  | str (s : String)
  | nul
  deriving DecidableEq, Repr

/-- Python truthiness of `fields.get(...)`: absent, `null`, `0` and the empty
string are all falsy. -/
def truthyJ : Option JVal → Bool
  | none => false
  | some JVal.nul => false
  | some (JVal.num q) => if q = 0 then false else true
  | some (JVal.str s) => if s = "" then false else true

/-- The three fields of an annuaire record read by the gate. -/
structure GeoRow where
  guai : Option JVal
  latitude : Option JVal
  longitude : Option JVal
  deriving DecidableEq, Repr

/-- The identity and coordinates of one merged school. -/
structure SchoolOut where
  suai : JVal
  lat : JVal
  lon : JVal
  deriving DecidableEq, Repr

/-- The per-record decision of the merge loop: `if not uai: continue`,
`if not lat or not lon: continue`, else build the school object carrying the
raw coordinate values. -/
def rowSchool (r : GeoRow) : Option SchoolOut :=
  if truthyJ r.guai then
    if truthyJ r.latitude ∧ truthyJ r.longitude then
      match r.guai, r.latitude, r.longitude with
      | some u, some la, some lo => some ⟨u, la, lo⟩
      | _, _, _ => none
    else none
  else none

/-- The merged composite artifact, restricted to the gate. -/
def mergeSchools (rows : List GeoRow) : List SchoolOut :=
  rows.filterMap rowSchool

/-- An annuaire row whose latitude is exactly 0 (a geometrically valid
coordinate). -/
def geoRowZeroLat : GeoRow :=
  ⟨some (JVal.str "0441234A"), some (JVal.num 0), some (JVal.num (-1))⟩

/-! ## Dictionary lemmas -/

theorem alookup_dinsert_self {α : Type} (k : String) (v : α) (m : AList α) :
    alookup k (dinsert k v m) = some v := by
  induction m with
  | nil => simp [dinsert, alookup]
  | cons p t ih =>
    obtain ⟨k1, v1⟩ := p
    by_cases h : k1 = k
    · simp [dinsert, h, alookup]
    · simp [dinsert, h, alookup, ih]

theorem alookup_dinsert_ne {α : Type} {k k1 : String} (h : k1 ≠ k) (v : α)
    (m : AList α) : alookup k (dinsert k1 v m) = alookup k m := by
  induction m with
  | nil => simp [dinsert, alookup, h]
  | cons p t ih =>
    obtain ⟨k2, v2⟩ := p
    by_cases h2 : k2 = k1
    · subst h2
      simp [dinsert, alookup, h]
    · simp [dinsert, h2, alookup, ih]

theorem dinsert_eq_append {α : Type} {k : String} {m : AList α}
    (h : k ∉ akeys m) (v : α) : dinsert k v m = m ++ [(k, v)] := by
  induction m with
  | nil => simp [dinsert]
  | cons p t ih =>
    obtain ⟨k1, v1⟩ := p
    simp only [akeys, List.mem_cons] at h
    push_neg at h
    have h1 : k1 ≠ k := fun he => h.1 he.symm
    simp [dinsert, h1, ih h.2]

theorem akeys_dinsert_mem {α : Type} {k : String} {m : AList α}
    (h : k ∈ akeys m) (v : α) : akeys (dinsert k v m) = akeys m := by
  induction m with
  | nil => simp [akeys] at h
  | cons p t ih =>
    obtain ⟨k1, v1⟩ := p
    by_cases h1 : k1 = k
    · simp [dinsert, h1, akeys]
    · have h2 : k ∈ akeys t := by
        simp only [akeys, List.mem_cons] at h
        rcases h with h3 | h3
        · exact absurd h3.symm h1
        · exact h3
      simp [dinsert, h1, akeys, ih h2]

theorem akeys_dinsert_not_mem {α : Type} {k : String} {m : AList α}
    (h : k ∉ akeys m) (v : α) : akeys (dinsert k v m) = akeys m ++ [k] := by
  rw [dinsert_eq_append h]
  induction m with
  | nil => simp [akeys]
  | cons p t ih =>
    obtain ⟨k1, v1⟩ := p
    simp only [akeys, List.mem_cons] at h
    push_neg at h
    simp [akeys, ih h.2]

theorem nodup_akeys_dinsert {α : Type} {m : AList α}
    (h : (akeys m).Nodup) (k : String) (v : α) :
    (akeys (dinsert k v m)).Nodup := by
  by_cases hm : k ∈ akeys m
  · rw [akeys_dinsert_mem hm]
    exact h
  · rw [akeys_dinsert_not_mem hm]
    simp [List.nodup_append, h, hm]

theorem mem_dinsert {α : Type} {p : String × α} {k : String} {v : α}
    {m : AList α} (h : p ∈ dinsert k v m) : p = (k, v) ∨ p ∈ m := by
  induction m with
  | nil => simpa [dinsert] using h
  | cons q t ih =>
    obtain ⟨k1, v1⟩ := q
    by_cases h1 : k1 = k
    · simp only [dinsert, if_pos h1, List.mem_cons] at h
      rcases h with h | h
      · exact Or.inl h
      · exact Or.inr (by simp [h])
    · simp only [dinsert, if_neg h1, List.mem_cons] at h
      rcases h with h | h
      · exact Or.inr (by simp [h])
      · rcases ih h with h2 | h2
        · exact Or.inl h2
        · exact Or.inr (by simp [h2])

/-! ## `save_and_merge` lemmas -/

theorem alookup_indexStep {keyOf : Rec0 → Option String} (m : AList Rec0)
    (r : Rec0) (k : String) :
    alookup k (indexStep keyOf m r) =
      Option.or (alookup k (indexStep keyOf [] r)) (alookup k m) := by
  unfold indexStep
  cases hk : keyOf r with
  | none => simp [alookup, Option.or]
  | some k1 =>
    by_cases h : k1 = k
    · subst h
      simp [alookup_dinsert_self, alookup, Option.or]
    · simp [alookup_dinsert_ne h, alookup, h, Option.or]

/-- Decomposition of the indexing fold: a key found in the result comes from
the last record of `rs` carrying it, else from the initial dict. -/
theorem alookup_indexBy (keyOf : Rec0 → Option String) (rs : List Rec0)
    (init : AList Rec0) (k : String) :
    alookup k (indexBy keyOf rs init) =
      Option.or (alookup k (indexBy keyOf rs [])) (alookup k init) := by
  induction rs generalizing init with
  | nil => simp [indexBy, alookup, Option.or]
  | cons r t ih =>
    show alookup k (indexBy keyOf t (indexStep keyOf init r)) = _
    rw [ih (indexStep keyOf init r)]
    have h2 : alookup k (indexBy keyOf (r :: t) []) =
        Option.or (alookup k (indexBy keyOf t []))
          (alookup k (indexStep keyOf [] r)) := by
      show alookup k (indexBy keyOf t (indexStep keyOf [] r)) = _
      rw [ih (indexStep keyOf [] r)]
    rw [h2, alookup_indexStep init r k]
    cases alookup k (indexBy keyOf t []) with
    | none => simp [Option.or]
    | some v => simp [Option.or]

theorem goodMap_indexStep {keyOf : Rec0 → Option String} {m : AList Rec0}
    (h : goodMap keyOf m) (r : Rec0) : goodMap keyOf (indexStep keyOf m r) := by
  unfold indexStep
  cases hk : keyOf r with
  | none => exact h
  | some k =>
    refine ⟨nodup_akeys_dinsert h.1 k r, ?_⟩
    intro p hp
    rcases mem_dinsert hp with h1 | h1
    · rw [h1]
      exact hk
    · exact h.2 p h1

theorem goodMap_indexBy (keyOf : Rec0 → Option String) (rs : List Rec0)
    {init : AList Rec0} (h : goodMap keyOf init) :
    goodMap keyOf (indexBy keyOf rs init) := by
  induction rs generalizing init with
  | nil => exact h
  | cons r t ih => exact ih (goodMap_indexStep h r)

theorem goodMap_nil (keyOf : Rec0 → Option String) : goodMap keyOf [] :=
  ⟨List.nodup_nil, by intro p hp; simp at hp⟩

/-- Re-indexing the persisted values of a well-formed dict rebuilds that dict
exactly: the generalized statement folds over the value list on top of any
dict whose keys are disjoint from it. -/
theorem indexBy_values_acc (keyOf : Rec0 → Option String) (m : AList Rec0)
    (h : goodMap keyOf m) (acc : AList Rec0)
    (hd : ∀ k ∈ akeys m, k ∉ akeys acc) :
    indexBy keyOf (m.map Prod.snd) acc = acc ++ m := by
  induction m generalizing acc with
  | nil => simp [indexBy]
  | cons p t ih =>
    obtain ⟨k1, r1⟩ := p
    have hk1 : keyOf r1 = some k1 := h.2 (k1, r1) (by simp)
    have hstep : indexStep keyOf acc r1 = acc ++ [(k1, r1)] := by
      unfold indexStep
      rw [hk1]
      exact dinsert_eq_append (hd k1 (by simp [akeys])) r1
    have hgood : goodMap keyOf t := by
      refine ⟨(List.nodup_cons.mp h.1).2, ?_⟩
      intro q hq
      exact h.2 q (by simp [hq])
    have hd2 : ∀ k ∈ akeys t, k ∉ akeys (acc ++ [(k1, r1)]) := by
      intro k hk
      have hka : akeys (acc ++ [(k1, r1)]) = akeys acc ++ [k1] := by
        clear hd hstep
        induction acc with
        | nil => simp [akeys]
        | cons q u ihq =>
          obtain ⟨k2, r2⟩ := q
          simp [akeys, ihq]
      rw [hka]
      simp only [List.mem_append, List.mem_singleton]
      push_neg
      constructor
      · exact hd k (by simp [akeys, hk])
      · intro he
        exact (List.nodup_cons.mp h.1).1 (he ▸ hk)
    show indexBy keyOf (t.map Prod.snd) (indexStep keyOf acc r1) = _
    rw [hstep, ih hgood (acc ++ [(k1, r1)]) hd2]
    simp

theorem indexBy_values (keyOf : Rec0 → Option String) (m : AList Rec0)
    (h : goodMap keyOf m) : indexBy keyOf (m.map Prod.snd) [] = m := by
  have := indexBy_values_acc keyOf m h [] (by intro k _; simp [akeys])
  simpa using this

/-! ## Claims C3, C4, C9 -/

/-- C3: the incremental merge is last-write-wins per key with a frame
condition — every key present in the new batch gets the new batch's record
for that key, and every key the new batch does not carry keeps exactly the
previously persisted record. -/
theorem c3_merge_last_write_wins_frame (kf : String)
    (existing newRecs : List Rec0) (k : String) :
    (∀ v, alookup k (indexBy (keyNested kf) newRecs []) = some v →
      alookup k (saveMergeNested kf existing newRecs) = some v) ∧
    (alookup k (indexBy (keyNested kf) newRecs []) = none →
      alookup k (saveMergeNested kf existing newRecs) =
        alookup k (indexBy (keyNested kf) existing [])) := by
  constructor
  · intro v hv
    show alookup k (indexBy (keyNested kf) newRecs
      (indexBy (keyNested kf) existing [])) = some v
    rw [alookup_indexBy, hv]
    rfl
  · intro hn
    show alookup k (indexBy (keyNested kf) newRecs
      (indexBy (keyNested kf) existing [])) = _
    rw [alookup_indexBy, hn]
    rfl

/-- Witness for C3: a store holding key `0441111A` merged with a batch
holding key `0442222B` keeps the old record at the untouched key and stores
the new record at the new key. -/
theorem c3_merge_last_write_wins_frame_witness :
    alookup "0441111A" (saveMergeNested "uai" [nestedRecA] [nestedRecB]) =
      alookup "0441111A" (indexBy (keyNested "uai") [nestedRecA] []) ∧
    alookup "0442222B" (saveMergeNested "uai" [nestedRecA] [nestedRecB]) =
      some nestedRecB := by
  constructor
  · exact (c3_merge_last_write_wins_frame "uai" [nestedRecA] [nestedRecB]
      "0441111A").2 (by decide)
  · exact (c3_merge_last_write_wins_frame "uai" [nestedRecA] [nestedRecB]
      "0442222B").1 nestedRecB (by decide)

/-- C4: the incremental merge is idempotent — re-merging the same batch into
the artifact persisted by the first merge yields the same key-to-record
mapping. -/
theorem c4_merge_idempotent (kf : String) (existing newRecs : List Rec0)
    (k : String) :
    alookup k (saveMergeNested kf (combinedNested kf existing newRecs) newRecs) =
      alookup k (saveMergeNested kf existing newRecs) := by
  have hgood : goodMap (keyNested kf) (saveMergeNested kf existing newRecs) :=
    goodMap_indexBy _ _ (goodMap_indexBy _ _ (goodMap_nil _))
  have hre : indexBy (keyNested kf) (combinedNested kf existing newRecs) [] =
      saveMergeNested kf existing newRecs := indexBy_values _ _ hgood
  show alookup k (indexBy (keyNested kf) newRecs
      (indexBy (keyNested kf) (combinedNested kf existing newRecs) [])) =
    alookup k (indexBy (keyNested kf) newRecs (indexBy (keyNested kf) existing []))
  rw [hre,
    show saveMergeNested kf existing newRecs =
      indexBy (keyNested kf) newRecs (indexBy (keyNested kf) existing []) from rfl,
    alookup_indexBy (keyNested kf) newRecs
      (indexBy (keyNested kf) newRecs (indexBy (keyNested kf) existing [])) k,
    alookup_indexBy (keyNested kf) newRecs
      (indexBy (keyNested kf) existing []) k]
  cases alookup k (indexBy (keyNested kf) newRecs []) with
  | none => simp [Option.or]
  | some v => simp [Option.or]

/-- C9: the claim fails on the code — `save_and_merge` of
`download_enrollment_data.py` extracts keys from the nested envelope only, so
the flat aggregated lycée-enrollment record built by
`download_lycees_effectifs` is dropped (the merge result is empty), while the
flat-then-nested extraction of `download_language_data.py` indexes the same
record under its top-level `uai`. -/
theorem c9_flat_record_dropped_by_enrollment_merge :
    saveMergeNested "uai" [] [lyceeFlatRec] = [] ∧
    saveMergeBoth "uai" [] [lyceeFlatRec] = [("0170001A", lyceeFlatRec)] := by
  constructor
  · rfl
  · rfl


/-! ## Claim C1: most-recent-wins -/

theorem charsLt_nil_right (a : List Char) : charsLt a [] = false := by
  cases a <;> rfl

theorem charsLt_irrefl (a : List Char) : charsLt a a = false := by
  induction a with
  | nil => rfl
  | cons x xs ih => simp [charsLt, ih]

theorem charsLt_asymm {a b : List Char} (h : charsLt a b = true) :
    charsLt b a = false := by
  induction a generalizing b with
  | nil =>
    cases b with
    | nil => simp [charsLt] at h
    | cons y ys => exact charsLt_nil_right _
  | cons x xs ih =>
    cases b with
    | nil => simp [charsLt_nil_right] at h
    | cons y ys =>
      simp only [charsLt] at h ⊢
      by_cases hxy : x.toNat < y.toNat
      · have hyx : ¬ y.toNat < x.toNat := by omega
        simp [hyx, hxy]
      · by_cases hyx : y.toNat < x.toNat
        · simp [hxy, hyx] at h
        · simp only [if_neg hxy, if_neg hyx] at h ⊢
          exact ih h

theorem charsLt_false_trans (a : List Char) :
    ∀ b c, charsLt a b = false → charsLt b c = false → charsLt a c = false := by
  induction a with
  | nil =>
    intro b c h1 h2
    cases b with
    | nil =>
      cases c with
      | nil => rfl
      | cons z zs => exact h2
    | cons y ys => simp [charsLt] at h1
  | cons x xs ih =>
    intro b c h1 h2
    cases c with
    | nil => exact charsLt_nil_right _
    | cons z zs =>
      cases b with
      | nil => simp [charsLt] at h2
      | cons y ys =>
        simp only [charsLt] at h1 h2 ⊢
        by_cases hxy : x.toNat < y.toNat
        · simp [hxy] at h1
        · by_cases hyz : y.toNat < z.toNat
          · simp [hyz] at h2
          · have hxz : ¬ x.toNat < z.toNat := by omega
            simp only [if_neg hxy] at h1
            simp only [if_neg hyz] at h2
            simp only [if_neg hxz]
            by_cases hzx : z.toNat < x.toNat
            · simp [hzx]
            · have hyx : ¬ y.toNat < x.toNat := by omega
              have hzy : ¬ z.toNat < y.toNat := by omega
              simp only [if_neg hyx] at h1
              simp only [if_neg hzy] at h2
              simp only [if_neg hzx]
              exact ih ys zs h1 h2

theorem strLt_irrefl (a : String) : strLt a a = false :=
  charsLt_irrefl a.toList

theorem strLt_asymm {a b : String} (h : strLt a b = true) : strLt b a = false :=
  charsLt_asymm h

theorem strLt_false_trans {a b c : String} (h1 : strLt a b = false)
    (h2 : strLt b c = false) : strLt a c = false :=
  charsLt_false_trans a.toList b.toList c.toList h1 h2

theorem brevetStep_of_none {r : BrevetRec} (h : truthyStr r.buai = none)
    (m : AList BrevetRec) : brevetStep m r = m := by
  unfold brevetStep
  rw [h]

theorem brevetStep_of_new {r : BrevetRec} {k : String}
    (h : truthyStr r.buai = some k) {m : AList BrevetRec}
    (hm : alookup k m = none) : brevetStep m r = dinsert k r m := by
  simp only [brevetStep, h, hm]

theorem brevetStep_of_old {r : BrevetRec} {k : String}
    (h : truthyStr r.buai = some k) {m : AList BrevetRec} {old : BrevetRec}
    (hm : alookup k m = some old) :
    brevetStep m r =
      if strLt old.session r.session then dinsert k r m else m := by
  simp only [brevetStep, h, hm]

theorem brevetStep_mono (m : AList BrevetRec) (r : BrevetRec) {k : String}
    {w : BrevetRec} (h : alookup k m = some w) :
    ∃ w2, alookup k (brevetStep m r) = some w2 ∧
      strLt w2.session w.session = false := by
  cases hk : truthyStr r.buai with
  | none =>
    refine ⟨w, ?_, strLt_irrefl _⟩
    rw [brevetStep_of_none hk]
    exact h
  | some k1 =>
    by_cases hkk : k1 = k
    · subst hkk
      rw [brevetStep_of_old hk h]
      by_cases hs : strLt w.session r.session = true
      · rw [if_pos hs]
        exact ⟨r, alookup_dinsert_self _ _ _, strLt_asymm hs⟩
      · rw [if_neg hs]
        exact ⟨w, h, strLt_irrefl _⟩
    · cases hm : alookup k1 m with
      | none =>
        rw [brevetStep_of_new hk hm]
        refine ⟨w, ?_, strLt_irrefl _⟩
        rw [alookup_dinsert_ne hkk]
        exact h
      | some old =>
        rw [brevetStep_of_old hk hm]
        by_cases hs : strLt old.session r.session = true
        · rw [if_pos hs]
          refine ⟨w, ?_, strLt_irrefl _⟩
          rw [alookup_dinsert_ne hkk]
          exact h
        · rw [if_neg hs]
          exact ⟨w, h, strLt_irrefl _⟩

theorem brevetFold_mono (rs : List BrevetRec) (m : AList BrevetRec)
    {k : String} {w : BrevetRec} (h : alookup k m = some w) :
    ∃ w2, alookup k (rs.foldl brevetStep m) = some w2 ∧
      strLt w2.session w.session = false := by
  induction rs generalizing m w with
  | nil => exact ⟨w, h, strLt_irrefl _⟩
  | cons r t ih =>
    obtain ⟨w1, hw1, hle1⟩ := brevetStep_mono m r h
    obtain ⟨w2, hw2, hle2⟩ := ih (brevetStep m r) hw1
    exact ⟨w2, hw2, strLt_false_trans hle2 hle1⟩

theorem brevetStep_covers (m : AList BrevetRec) (r : BrevetRec) {k : String}
    (h : truthyStr r.buai = some k) :
    ∃ w, alookup k (brevetStep m r) = some w ∧
      strLt w.session r.session = false := by
  cases hm : alookup k m with
  | none =>
    rw [brevetStep_of_new h hm]
    exact ⟨r, alookup_dinsert_self _ _ _, strLt_irrefl _⟩
  | some old =>
    rw [brevetStep_of_old h hm]
    by_cases hs : strLt old.session r.session = true
    · rw [if_pos hs]
      exact ⟨r, alookup_dinsert_self _ _ _, strLt_irrefl _⟩
    · rw [if_neg hs]
      exact ⟨old, hm, Bool.not_eq_true _ ▸ hs⟩

/-- C1, amended: for every reconciled key the finally stored record's session
is ≥ every candidate's session sharing that key (`strLt stored candidate =
false`, first conjunct); but on an exact session tie the existing stored
record is kept — a candidate replaces the stored record only when its session
is strictly greater (second conjunct). -/
theorem c1_most_recent_wins_first_wins_ties :
    (∀ (rs : List BrevetRec) (r : BrevetRec) (k : String), r ∈ rs →
      truthyStr r.buai = some k →
      ∃ w, alookup k (brevetLatest rs) = some w ∧
        strLt w.session r.session = false) ∧
    (∀ (m : AList BrevetRec) (r : BrevetRec) (k : String) (old : BrevetRec),
      truthyStr r.buai = some k → alookup k m = some old →
      old.session = r.session → brevetStep m r = m) := by
  constructor
  · intro rs r k hmem hk
    obtain ⟨l, t, rfl⟩ := List.append_of_mem hmem
    unfold brevetLatest
    rw [List.foldl_append]
    show ∃ w, alookup k ((r :: t).foldl brevetStep (l.foldl brevetStep [])) =
      some w ∧ strLt w.session r.session = false
    rw [List.foldl_cons]
    obtain ⟨w1, hw1, hle1⟩ := brevetStep_covers (l.foldl brevetStep []) r hk
    obtain ⟨w2, hw2, hle2⟩ := brevetFold_mono t _ hw1
    exact ⟨w2, hw2, strLt_false_trans hle2 hle1⟩
  · intro m r k old hk hold heq
    rw [brevetStep_of_old hk hold, heq, if_neg]
    rw [strLt_irrefl]
    exact Bool.false_ne_true

/-- Witness for C1: with a stored 2022 record and a 2023 candidate for the
same school, the reconciled entry's session is ≥ the 2022 candidate's. -/
theorem c1_most_recent_wins_first_wins_ties_witness :
    ∃ w, alookup "0441234A"
        (brevetLatest [⟨some "0441234A", "2022", 7⟩, brevetRecA]) = some w ∧
      strLt w.session "2022" = false := by
  exact c1_most_recent_wins_first_wins_ties.1
    [⟨some "0441234A", "2022", 7⟩, brevetRecA]
    ⟨some "0441234A", "2022", 7⟩ "0441234A" (by decide) (by decide)

/-- Counterexample to C1 as stated: two records for the same school with equal
sessions — the code keeps the first (existing) record, while the claim says
the tie goes to the candidate. -/
theorem c1_candidate_wins_ties_counterexample :
    alookup "0441234A" (brevetLatest [brevetRecA, brevetRecB]) =
      some brevetRecA ∧ brevetRecA ≠ brevetRecB := by
  constructor
  · decide
  · decide

/-! ## Claim C8: high-school scope filter -/

/-- C8: within the lycée branch of the annuaire filter — a professional-track
marker in the nature label or the name excludes the row regardless of the
track flags; with no marker, a true general-track flag includes the row; and
with no marker and both track flags absent the row is also included. -/
theorem c8_highschool_scope_filter (r : AnnRow) (hl : isLyceeRow r = true) :
    (profMarker r = true → annuaireKeep r = false) ∧
    (profMarker r = false → r.voie_generale = some true →
      annuaireKeep r = true) ∧
    (profMarker r = false → r.voie_generale = none →
      r.voie_professionnelle = none → annuaireKeep r = true) := by
  have h0 : isEcoleRow r = false ∧ isCollegeRow r = false ∧
      (strContains "Lycée" r.type_etablissement ||
        strContains "LYCEE" (strUpper r.libelle_nature)) = true := by
    simp only [isLyceeRow, Bool.and_eq_true, Bool.not_eq_true'] at hl
    exact ⟨hl.1.1, hl.1.2, hl.2⟩
  obtain ⟨h1, h2, h3⟩ := h0
  refine ⟨?_, ?_, ?_⟩
  · intro hp
    simp [annuaireKeep, h1, h2, h3, hp]
  · intro hp hvg
    simp [annuaireKeep, h1, h2, h3, hp, hvg]
  · intro hp hvg hvp
    simp [annuaireKeep, h1, h2, h3, hp, hvg, hvp]

/-- Witness for C8: a lycée row with no professional marker and all track
fields absent is included. -/
theorem c8_highschool_scope_filter_witness :
    annuaireKeep lyceeRowUnknown = true :=
  (c8_highschool_scope_filter lyceeRowUnknown (by decide)).2.2 (by decide)
    (by decide) (by decide)

/-! ## Claim C10: the joiner's coordinate gate is a falsy check -/

/-- C10: every school surviving the merge gate has latitude and longitude
that are non-null, nonzero and nonempty; and a row whose latitude or
longitude is exactly `0` or the empty string is dropped even though `0.0` is
a geometrically valid coordinate. -/
theorem c10_coordinate_gate_falsy (rows : List GeoRow) (s : SchoolOut)
    (hs : s ∈ mergeSchools rows) (r : GeoRow) :
    (s.lat ≠ JVal.nul ∧ s.lat ≠ JVal.num 0 ∧ s.lat ≠ JVal.str "" ∧
      s.lon ≠ JVal.nul ∧ s.lon ≠ JVal.num 0 ∧ s.lon ≠ JVal.str "") ∧
    ((r.latitude = some (JVal.num 0) ∨ r.latitude = some (JVal.str "") ∨
      r.longitude = some (JVal.num 0) ∨ r.longitude = some (JVal.str "")) →
      rowSchool r = none) := by
  constructor
  · obtain ⟨r0, _, hr0⟩ := List.mem_filterMap.mp hs
    unfold rowSchool at hr0
    by_cases hu : truthyJ r0.guai = true
    · rw [if_pos hu] at hr0
      by_cases hco : truthyJ r0.latitude = true ∧ truthyJ r0.longitude = true
      · rw [if_pos hco] at hr0
        obtain ⟨hla, hlo⟩ := hco
        cases hgu : r0.guai with
        | none => rw [hgu] at hr0; cases hr0
        | some u =>
          cases hla2 : r0.latitude with
          | none => rw [hla2] at hla; cases hla
          | some la =>
            cases hlo2 : r0.longitude with
            | none => rw [hlo2] at hlo; cases hlo
            | some lo =>
              rw [hgu, hla2, hlo2] at hr0
              cases hr0
              rw [hla2] at hla
              rw [hlo2] at hlo
              refine ⟨?_, ?_, ?_, ?_, ?_, ?_⟩ <;>
                · intro he
                  subst he
                  simp [truthyJ] at hla hlo
      · rw [if_neg hco] at hr0; cases hr0
    · rw [if_neg hu] at hr0; cases hr0
  · intro hbad
    unfold rowSchool
    by_cases hu : truthyJ r.guai = true
    · rw [if_pos hu]
      have hco : ¬ (truthyJ r.latitude = true ∧ truthyJ r.longitude = true) := by
        rcases hbad with hb | hb | hb | hb <;> rw [hb] <;> simp [truthyJ]
      rw [if_neg hco]
    · rw [if_neg hu]

/-- Witness for C10: the gate drops a row whose latitude is exactly `0`, and
a surviving school has nonzero coordinates. -/
theorem c10_coordinate_gate_falsy_witness :
    rowSchool geoRowZeroLat = none ∧
    (⟨JVal.str "0441234A", JVal.num 47, JVal.num (-1)⟩ : SchoolOut).lat ≠
      JVal.num 0 := by
  constructor
  · exact (c10_coordinate_gate_falsy
      [⟨some (JVal.str "0441234A"), some (JVal.num 47), some (JVal.num (-1))⟩]
      ⟨JVal.str "0441234A", JVal.num 47, JVal.num (-1)⟩
      (by simp [mergeSchools, rowSchool, truthyJ]) geoRowZeroLat).2
      (Or.inl rfl)
  · exact ((c10_coordinate_gate_falsy
      [⟨some (JVal.str "0441234A"), some (JVal.num 47), some (JVal.num (-1))⟩]
      ⟨JVal.str "0441234A", JVal.num 47, JVal.num (-1)⟩
      (by simp [mergeSchools, rowSchool, truthyJ]) geoRowZeroLat).1).2.1

/-! ## Claim C5: municipal round precedence -/

/-- C5: the claim ("a strictly higher round always wins") fails on the code —
a lone valid round-2 row does produce a round-2 entry (first conjunct), but
when a round-1 entry with a higher percentage is already stored, the same
valid round-2 row is rejected by the nested percentage comparison and the
commune keeps the round-1 entry (second conjunct). -/
theorem c5_round2_does_not_always_win :
    (alookup "44001" (municipalRun [] [munRow2])).map MunEntry.roundNum =
      some 2 ∧
    (alookup "44001" (municipalRun [munRow1] [munRow2])).map MunEntry.roundNum =
      some 1 := by
  have hp55 : parsePyInt "55" = some 55 := by decide
  have hp60 : parsePyInt "60" = some 60 := by decide
  have hp100 : parsePyInt "100" = some 100 := by decide
  have happ : ("44" : String) ++ "001" = "44001" := by decide
  constructor
  · simp only [municipalRun, List.foldl, municipalStep, munRow2, DEPARTMENTS,
      hp55, hp100, happ]
    norm_num [alookup, dinsert, munListName]
  · simp only [municipalRun, List.foldl, municipalStep, munRow1, munRow2,
      DEPARTMENTS, hp55, hp60, hp100, happ]
    norm_num [alookup, dinsert, munListName, round1]

/-! ## Claim C2: the expressed-votes denominator is read once per key -/

theorem presTotals_decomp (rows : List PresRow) (st : PresState) (k : String) :
    alookup k (rows.foldl presStep st).totals =
      Option.or (alookup k st.totals) (firstExprimes k rows) := by
  induction rows generalizing st with
  | nil =>
    simp only [List.foldl_nil, firstExprimes]
    cases ht : alookup k st.totals <;> simp [Option.or]
  | cons r t ih =>
    rw [List.foldl_cons, ih]
    by_cases hd : r.dept ∈ DEPARTMENTS
    · have hstep : (presStep st r).totals =
          presTotalsUpd st.totals r (r.dept ++ r.commune) := by
        simp [presStep, hd]
      rw [hstep]
      by_cases hk : r.dept ++ r.commune = k
      · cases ht : alookup k st.totals with
        | some v =>
          have hupd : alookup k (presTotalsUpd st.totals r (r.dept ++ r.commune)) =
              some v := by
            unfold presTotalsUpd
            rw [hk, ht]
            simp [ht]
          rw [hupd]
          simp [Option.or]
        | none =>
          by_cases he : r.exprimes = ""
          · have hupd : alookup k (presTotalsUpd st.totals r (r.dept ++ r.commune)) =
                none := by
              unfold presTotalsUpd
              simp [he, ht, hk]
            rw [hupd]
            have hcond : ¬ (r.dept ∈ DEPARTMENTS ∧ r.dept ++ r.commune = k ∧
                r.exprimes ≠ "" ∧ (parsePyInt r.exprimes).isSome = true) := by
              intro hc
              exact hc.2.2.1 he
            have hfe : firstExprimes k (r :: t) = firstExprimes k t := by
              simp only [firstExprimes]
              rw [if_neg hcond]
            rw [hfe]
          · cases hp : parsePyInt r.exprimes with
            | some t0 =>
              have hupd : alookup k
                  (presTotalsUpd st.totals r (r.dept ++ r.commune)) =
                  some t0 := by
                unfold presTotalsUpd
                rw [hk, ht]
                simp [he, hp, alookup_dinsert_self]
              rw [hupd]
              have hfe : firstExprimes k (r :: t) = some t0 := by
                simp only [firstExprimes]
                rw [if_pos ⟨hd, hk, he, by simp [hp]⟩]
                exact hp
              rw [hfe]
              cases hft : firstExprimes k t <;> simp [Option.or]
            | none =>
              have hupd : alookup k
                  (presTotalsUpd st.totals r (r.dept ++ r.commune)) =
                  none := by
                unfold presTotalsUpd
                rw [hk, ht]
                simp [he, hp, ht]
              rw [hupd]
              have hcond : ¬ (r.dept ∈ DEPARTMENTS ∧ r.dept ++ r.commune = k ∧
                  r.exprimes ≠ "" ∧ (parsePyInt r.exprimes).isSome = true) := by
                intro hc
                rw [hp] at hc
                simp at hc
              have hfe : firstExprimes k (r :: t) = firstExprimes k t := by
                simp only [firstExprimes]
                rw [if_neg hcond]
              rw [hfe]
      · have hupd : alookup k (presTotalsUpd st.totals r (r.dept ++ r.commune)) =
            alookup k st.totals := by
          unfold presTotalsUpd
          by_cases hg : r.exprimes ≠ "" ∧
              alookup (r.dept ++ r.commune) st.totals = none
          · rw [if_pos hg]
            cases hp : parsePyInt r.exprimes with
            | some t0 => exact alookup_dinsert_ne hk t0 st.totals
            | none => rfl
          · rw [if_neg hg]
        rw [hupd]
        have hcond : ¬ (r.dept ∈ DEPARTMENTS ∧ r.dept ++ r.commune = k ∧
            r.exprimes ≠ "" ∧ (parsePyInt r.exprimes).isSome = true) := by
          intro hc
          exact hk hc.2.1
        have hfe : firstExprimes k (r :: t) = firstExprimes k t := by
          simp only [firstExprimes]
          rw [if_neg hcond]
        rw [hfe]
    · have hstep : presStep st r = st := by
        simp [presStep, hd]
      rw [hstep]
      have hcond : ¬ (r.dept ∈ DEPARTMENTS ∧ r.dept ++ r.commune = k ∧
          r.exprimes ≠ "" ∧ (parsePyInt r.exprimes).isSome = true) := by
        intro hc
        exact hd hc.1
      have hfe : firstExprimes k (r :: t) = firstExprimes k t := by
        simp only [firstExprimes]
        rw [if_neg hcond]
      rw [hfe]

/-- C2: the expressed-votes denominator is read exactly once per commune —
the totals entry equals the first parseable `exprimes` among the commune's
rows, never a sum across candidate rows (first conjunct); and on the two-row
regression example sharing denominator 146394, the second candidate's
percentage is `round(43386/146394*100, 1) = 29.6`, not the double-counted
`43386/(2*146394)*100` (second conjunct). -/
theorem c2_denominator_read_once_per_key :
    (∀ (rows : List PresRow) (insee : String),
      alookup insee (presAgg rows).totals = firstExprimes insee rows) ∧
    presPctOf [presRowA, presRowB] "44001" "LUC MARTIN" = some (296 / 10) ∧
    (296 / 10 : ℚ) = round1 ((43386 : ℚ) / 146394 * 100) ∧
    (296 / 10 : ℚ) ≠ round1 ((43386 : ℚ) / (146394 * 2) * 100) := by
  refine ⟨?_, ?_, ?_, ?_⟩
  · intro rows insee
    show alookup insee (rows.foldl presStep ⟨[], []⟩).totals = _
    rw [presTotals_decomp]
    simp [alookup, Option.or]
  · have hpA : parsePyInt "48000" = some 48000 := by decide
    have hpB : parsePyInt "43386" = some 43386 := by decide
    have hpT : parsePyInt "146394" = some 146394 := by decide
    have happ : ("44" : String) ++ "001" = "44001" := by decide
    have hsA : (if ("ANNE" : String) = "" then "DUPONT"
        else "ANNE" ++ " " ++ "DUPONT") = "ANNE DUPONT" := by decide
    have hsB : (if ("LUC" : String) = "" then "MARTIN"
        else "LUC" ++ " " ++ "MARTIN") = "LUC MARTIN" := by decide
    have hne : ¬ (("ANNE DUPONT" : String) = "LUC MARTIN") := by decide
    simp only [presPctOf, presAgg, List.foldl, presStep, presVotesUpd,
      presTotalsUpd, presRowA, presRowB, DEPARTMENTS, presName, bumpVotes,
      hpA, hpB, hpT, happ, hsA, hsB]
    norm_num [alookup, dinsert, sumVals, round1, hne]
  · norm_num [round1]
  · norm_num [round1]

/-! ## Claim C7: runoff subtraction and percentage-pair invariant -/

theorem round1_le (q : ℚ) : round1 q ≤ q + 1 / 20 := by
  unfold round1
  have h := Int.floor_le (10 * q + 1 / 2)
  rw [div_le_iff₀ (by norm_num : (0 : ℚ) < 10)]
  linarith

theorem round1_gt (q : ℚ) : q - 1 / 20 < round1 q := by
  unfold round1
  have h := Int.lt_floor_add_one (10 * q + 1 / 2)
  rw [lt_div_iff₀ (by norm_num : (0 : ℚ) < 10)]
  linarith

/-- C7: whenever the runoff computation stores a result, the trailing
candidate's percentage is derived from `expressed_votes - leading_votes`
(never absent), and the two stored rounded percentages sum to a value in
`[99, 101]`. -/
theorem c7_runoff_subtraction_and_sum_bounds (cands : List PresCand)
    (total : Int) (r : Round2Res) (h : presRound2 cands total = some r) :
    (∃ c, findMacron cands = some c ∧
      r.macron = round1 ((c.votes : ℚ) / (total : ℚ) * 100) ∧
      r.lePen = round1 (((total - c.votes : Int) : ℚ) / (total : ℚ) * 100)) ∧
    99 ≤ r.macron + r.lePen ∧ r.macron + r.lePen ≤ 101 := by
  have hnone : ∀ cs, findMacron cs = none → presRound2 cs total = none := by
    intro cs hf
    unfold presRound2
    rw [hf]
  have hsome : ∀ cs c, findMacron cs = some c → presRound2 cs total =
      if 0 < total then
        some ⟨round1 ((c.votes : ℚ) / (total : ℚ) * 100),
          round1 (((total - c.votes : Int) : ℚ) / (total : ℚ) * 100)⟩
      else none := by
    intro cs c hf
    unfold presRound2
    rw [hf]
  cases hf : findMacron cands with
  | none =>
    rw [hnone cands hf] at h
    cases h
  | some c =>
    rw [hsome cands c hf] at h
    by_cases ht : 0 < total
    · rw [if_pos ht] at h
      have hr : r = ⟨round1 ((c.votes : ℚ) / (total : ℚ) * 100),
          round1 (((total - c.votes : Int) : ℚ) / (total : ℚ) * 100)⟩ := by
        cases h
        rfl
      subst hr
      refine ⟨⟨c, rfl, rfl, rfl⟩, ?_, ?_⟩ <;>
      · have htQ : (0 : ℚ) < (total : ℚ) := by exact_mod_cast ht
        have hsum : ((total - c.votes : Int) : ℚ) / (total : ℚ) * 100 =
            100 - (c.votes : ℚ) / (total : ℚ) * 100 := by
          push_cast
          field_simp
          ring
        rw [hsum]
        have h1 := round1_le ((c.votes : ℚ) / (total : ℚ) * 100)
        have h2 := round1_gt ((c.votes : ℚ) / (total : ℚ) * 100)
        have h3 := round1_le (100 - (c.votes : ℚ) / (total : ℚ) * 100)
        have h4 := round1_gt (100 - (c.votes : ℚ) / (total : ℚ) * 100)
        simp only [Round2Res.macron, Round2Res.lePen]
        linarith
    · rw [if_neg ht] at h
      cases h

/-- Witness for C7: the concrete runoff 60-of-100 stores 60.0 and 40.0,
whose sum lies in the band. -/
theorem c7_runoff_subtraction_and_sum_bounds_witness :
    ∃ r, presRound2 presR2Cands 100 = some r ∧
      99 ≤ r.macron + r.lePen ∧ r.macron + r.lePen ≤ 101 := by
  have hM : strContains "MACRON" (strUpper "Emmanuel MACRON") = true := by decide
  have hr : presRound2 presR2Cands 100 =
      some ⟨round1 ((60 : ℚ) / 100 * 100),
        round1 (((100 - 60 : Int) : ℚ) / 100 * 100)⟩ := by
    unfold presRound2 presR2Cands findMacron
    rw [hM]
    norm_num
  refine ⟨_, hr, ?_, ?_⟩
  · exact (c7_runoff_subtraction_and_sum_bounds presR2Cands 100 _ hr).2.1
  · exact (c7_runoff_subtraction_and_sum_bounds presR2Cands 100 _ hr).2.2

/-! ## Claim C6: top-N selection and ordering -/

theorem insertDescBy_perm {α β : Type} [LinearOrder β] (key : α → β) (c : α)
    (l : List α) : (insertDescBy key c l).Perm (c :: l) := by
  induction l with
  | nil => exact List.Perm.refl _
  | cons d t ih =>
    by_cases h : key d ≤ key c
    · simp only [insertDescBy, if_pos h]
      exact List.Perm.refl _
    · simp only [insertDescBy, if_neg h]
      exact (ih.cons d).trans (List.Perm.swap c d t)

theorem sortDescBy_perm {α β : Type} [LinearOrder β] (key : α → β)
    (l : List α) : (sortDescBy key l).Perm l := by
  induction l with
  | nil => exact List.Perm.refl _
  | cons c t ih =>
    exact (insertDescBy_perm key c (sortDescBy key t)).trans (ih.cons c)

theorem insertDescBy_head {α β : Type} [LinearOrder β] (key : α → β) (c : α)
    (l : List α) :
    (insertDescBy key c l).head? = some c ∨
      (insertDescBy key c l).head? = l.head? := by
  cases l with
  | nil => exact Or.inl rfl
  | cons d t =>
    by_cases h : key d ≤ key c
    · exact Or.inl (by simp [insertDescBy, h])
    · exact Or.inr (by simp [insertDescBy, h])

theorem chain'_insertDescBy {α β : Type} [LinearOrder β] (key : α → β) (c : α)
    {l : List α} (h : List.Chain' (fun a b => key b ≤ key a) l) :
    List.Chain' (fun a b => key b ≤ key a) (insertDescBy key c l) := by
  induction l with
  | nil => simp [insertDescBy]
  | cons d t ih =>
    by_cases hd : key d ≤ key c
    · simp only [insertDescBy, if_pos hd]
      exact List.chain'_cons.mpr ⟨hd, h⟩
    · simp only [insertDescBy, if_neg hd]
      have ht : List.Chain' (fun a b => key b ≤ key a) t :=
        (List.chain'_cons'.mp h).2
      refine List.chain'_cons'.mpr ⟨?_, ih ht⟩
      intro x hx
      rcases insertDescBy_head key c t with h1 | h1
      · rw [h1] at hx
        have hxc : c = x := by simpa using hx
        subst hxc
        exact le_of_not_le hd
      · rw [h1] at hx
        exact (List.chain'_cons'.mp h).1 x hx

theorem chain'_sortDescBy {α β : Type} [LinearOrder β] (key : α → β)
    (l : List α) :
    List.Chain' (fun a b => key b ≤ key a) (sortDescBy key l) := by
  induction l with
  | nil => simp [sortDescBy]
  | cons c t ih => exact chain'_insertDescBy key c ih

theorem pairwise_sortDescBy {α β : Type} [LinearOrder β] (key : α → β)
    (l : List α) :
    List.Pairwise (fun a b => key b ≤ key a) (sortDescBy key l) := by
  haveI : IsTrans α (fun a b => key b ≤ key a) :=
    ⟨fun a b c h1 h2 => le_trans h2 h1⟩
  exact List.chain'_iff_pairwise.mp (chain'_sortDescBy key l)

theorem chain'_take_sortDescBy {α β : Type} [LinearOrder β] (key : α → β)
    (l : List α) (n : Nat) :
    List.Chain' (fun a b => key b ≤ key a) ((sortDescBy key l).take n) := by
  haveI : IsTrans α (fun a b => key b ≤ key a) :=
    ⟨fun a b c h1 h2 => le_trans h2 h1⟩
  exact List.chain'_iff_pairwise.mpr
    ((pairwise_sortDescBy key l).sublist (List.take_sublist n _))

theorem sortDescBy_take_drop {α β : Type} [LinearOrder β] (key : α → β)
    (l : List α) (n : Nat) {a b : α} (ha : a ∈ (sortDescBy key l).take n)
    (hb : b ∈ (sortDescBy key l).drop n) : key b ≤ key a := by
  have hp := pairwise_sortDescBy key l
  rw [← List.take_append_drop n (sortDescBy key l)] at hp
  exact (List.pairwise_append.mp hp).2.2 a ha b hb

/-- C6, amended: each stored top-2 / top-4 list is the initial segment of the
candidates sorted in NON-INCREASING order of the ranking field (vote count
for legislative rounds, rounded percentage for presidential round 1), every
selected candidate ranks ≥ every unselected one, and selection plus rest is a
permutation of the input — but the ordering is non-increasing rather than
strictly decreasing, since equal ranking values can occur. -/
theorem c6_topk_sorted_nonincreasing :
    (∀ (cands : List LegCand) (tc : Nat),
      List.Chain' (fun a b => b.votes ≤ a.votes) (legisSelect cands tc)) ∧
    (∀ (cands : List LegCand) (tc : Nat) (a b : LegCand),
      a ∈ legisSelect cands tc → b ∈ legisRest cands tc → b.votes ≤ a.votes) ∧
    (∀ (cands : List LegCand) (tc : Nat),
      (legisSelect cands tc ++ legisRest cands tc).Perm cands) ∧
    (∀ l : List PresPct,
      List.Chain' (fun a b => b.pct ≤ a.pct) (presTop4 l)) ∧
    (∀ (l : List PresPct) (a b : PresPct),
      a ∈ presTop4 l → b ∈ presRest4 l → b.pct ≤ a.pct) ∧
    (∀ l : List PresPct, (presTop4 l ++ presRest4 l).Perm l) := by
  refine ⟨?_, ?_, ?_, ?_, ?_, ?_⟩
  · intro cands tc
    exact chain'_take_sortDescBy (fun c => c.votes) cands tc
  · intro cands tc a b ha hb
    exact sortDescBy_take_drop (fun c => c.votes) cands tc ha hb
  · intro cands tc
    show ((legisSort cands).take tc ++ (legisSort cands).drop tc).Perm cands
    rw [List.take_append_drop]
    exact sortDescBy_perm _ cands
  · intro l
    exact chain'_take_sortDescBy (fun c => c.pct) l 4
  · intro l a b ha hb
    exact sortDescBy_take_drop (fun c => c.pct) l 4 ha hb
  · intro l
    show ((sortDescBy (fun c => c.pct) l).take 4 ++
      (sortDescBy (fun c => c.pct) l).drop 4).Perm l
    rw [List.take_append_drop]
    exact sortDescBy_perm _ l

/-- Witness for C6: the tied legislative pair is sorted non-increasingly and
splits as a permutation; with top count 1 the selected tied candidate ranks ≥
the rejected one; and on five concrete presidential candidates the stored
fourth ranks ≥ the unstored fifth, with selection plus rest a permutation. -/
theorem c6_topk_sorted_nonincreasing_witness :
    List.Chain' (fun a b : LegCand => b.votes ≤ a.votes)
      (legisSelect [legTieA, legTieB] 2) ∧
    (legisSelect [legTieA, legTieB] 2 ++
      legisRest [legTieA, legTieB] 2).Perm [legTieA, legTieB] ∧
    legTieB.votes ≤ legTieA.votes ∧
    ((⟨"P5", 10⟩ : PresPct).pct ≤ (⟨"P4", 20⟩ : PresPct).pct) ∧
    (presTop4 presPctList ++ presRest4 presPctList).Perm presPctList := by
  refine ⟨c6_topk_sorted_nonincreasing.1 [legTieA, legTieB] 2,
    c6_topk_sorted_nonincreasing.2.2.1 [legTieA, legTieB] 2, ?_, ?_,
    c6_topk_sorted_nonincreasing.2.2.2.2.2 presPctList⟩
  · have hsel : legisSelect [legTieA, legTieB] 1 = [legTieA] := by
      simp [legisSelect, legisSort, sortDescBy, insertDescBy, legTieA, legTieB]
    have hrest : legisRest [legTieA, legTieB] 1 = [legTieB] := by
      simp [legisRest, legisSort, sortDescBy, insertDescBy, legTieA, legTieB]
    refine c6_topk_sorted_nonincreasing.2.1 [legTieA, legTieB] 1
      legTieA legTieB ?_ ?_
    · rw [hsel]
      exact List.mem_singleton.mpr rfl
    · rw [hrest]
      exact List.mem_singleton.mpr rfl
  · have hsel : presTop4 presPctList =
        [⟨"P1", 50⟩, ⟨"P2", 40⟩, ⟨"P3", 30⟩, ⟨"P4", 20⟩] := by
      norm_num [presTop4, presPctList, sortDescBy, insertDescBy]
    have hrest : presRest4 presPctList = [⟨"P5", 10⟩] := by
      norm_num [presRest4, presPctList, sortDescBy, insertDescBy]
    refine c6_topk_sorted_nonincreasing.2.2.2.2.1 presPctList
      ⟨"P4", 20⟩ ⟨"P5", 10⟩ ?_ ?_
    · rw [hsel]
      exact List.mem_cons_of_mem _ (List.mem_cons_of_mem _
        (List.mem_cons_of_mem _ (List.mem_cons_self _ _)))
    · rw [hrest]
      exact List.mem_singleton.mpr rfl

/-- Counterexample to C6 as stated: two candidates with equal vote counts —
the stored round-2 pair carries votes `[50, 50]`, which is not strictly
descending. -/
theorem c6_strictly_descending_counterexample :
    (legisSelect [legTieA, legTieB] 2).map LegCand.votes = [50, 50] ∧
    ¬ List.Chain' (fun a b : LegCand => b.votes < a.votes)
      (legisSelect [legTieA, legTieB] 2) := by
  have hsel : legisSelect [legTieA, legTieB] 2 = [legTieA, legTieB] := by
    simp [legisSelect, legisSort, sortDescBy, insertDescBy, legTieA, legTieB]
  constructor
  · rw [hsel]
    rfl
  · rw [hsel]
    intro hc
    have h50 := (List.chain'_cons.mp hc).1
    simp [legTieA, legTieB] at h50

end SchoolsMap
